import Mathlib

/-!
Verification development for the AI-Powered-Menu backend core
(src/backend/app/utils.py and src/backend/app/views.py).

Strings are modelled as lists of characters; Python float timestamps are
modelled as rationals.  Fallible Python functions (the ones that raise)
return Except.  The network transport and the JSON parser of the standard
library are factored out as explicit inputs of the provider functions, so
that "no network call is made" is expressible as independence from the
transport argument.
-/

set_option maxRecDepth 8000

namespace AIMenu

/-- Codepoints of the characters for which Python str.isspace (and hence the
regex whitespace class used by _ALLOWED_PATTERN and re.sub, and str.split and
str.strip) returns true. -/
def pySpaceCodes : List Nat :=
  [9, 10, 11, 12, 13, 28, 29, 30, 31, 32, 133, 160, 5760,
   8192, 8193, 8194, 8195, 8196, 8197, 8198, 8199, 8200, 8201, 8202,
   8232, 8233, 8239, 8287, 12288]

def isPySpace (c : Char) : Bool := pySpaceCodes.contains c.toNat

/-- Python str.strip with no argument: remove leading and trailing whitespace. -/
def pyStrip (s : List Char) : List Char :=
  ((s.dropWhile isPySpace).reverse.dropWhile isPySpace).reverse

/-- ASCII lower-casing of a character; models Python str.lower on the ASCII
fragment used by this program (all patterns and table entries are ASCII). -/
def toLowerChar (c : Char) : Char :=
  if 65 ≤ c.toNat ∧ c.toNat ≤ 90 then Char.ofNat (c.toNat + 32) else c

/-- Python str.lower. -/
def pyLower (s : List Char) : List Char := s.map toLowerChar

/-- Codepoints of the punctuation admitted by _ALLOWED_PATTERN: hyphen,
ampersand, apostrophe, parentheses, comma, period, plus, slash. -/
def allowedPunctCodes : List Nat := [45, 38, 39, 40, 41, 44, 46, 43, 47]

/-- Membership in the character class of _ALLOWED_PATTERN
(utils.py line 13): ASCII letters, ASCII digits, whitespace, and the fixed
punctuation set. -/
def allowedChar (c : Char) : Bool :=
  (65 ≤ c.toNat && c.toNat ≤ 90) || (97 ≤ c.toNat && c.toNat ≤ 122) ||
  (48 ≤ c.toNat && c.toNat ≤ 57) || isPySpace c ||
  allowedPunctCodes.contains c.toNat

/-- _ALLOWED_PATTERN.match(s): the pattern is an anchored nonempty repetition
of the class, so it matches exactly the nonempty strings all of whose
characters are in the class. -/
def allowedPatternMatch (s : List Char) : Bool := !s.isEmpty && s.all allowedChar

/-- Helper for collapseWS: the flag records whether the previous character was
whitespace, i.e. whether we are inside a whitespace run that has already
produced its single replacement space. -/
def collapseWSAux : Bool → List Char → List Char
  | _, [] => []
  | prevSpace, c :: rest =>
    if isPySpace c then
      if prevSpace then collapseWSAux true rest
      else ' ' :: collapseWSAux true rest
    else c :: collapseWSAux false rest

/-- re.sub of one or more whitespace characters by a single space
(utils.py line 24). -/
def collapseWS (s : List Char) : List Char := collapseWSAux false s

/-- sanitize_item_name (utils.py lines 15-25).  The isinstance check of the
source is realised by the type of the argument. -/
def sanitize_item_name (raw : List Char) : Except (List Char) (List Char) :=
  if (pyStrip raw).length < 2 || 120 < (pyStrip raw).length then
    Except.error ("itemName length must be between 2 and 120 characters.".toList)
  else if !allowedPatternMatch (pyStrip raw) then
    Except.error ("itemName contains invalid characters.".toList)
  else
    Except.ok (collapseWS (pyStrip raw))

/-- Helper for pySplit: accumulates the current word in reverse. -/
def pySplitAux : List Char → List Char → List (List Char)
  | [], acc => if acc.isEmpty then [] else [acc.reverse]
  | c :: rest, acc =>
    if isPySpace c then
      if acc.isEmpty then pySplitAux rest []
      else acc.reverse :: pySplitAux rest []
    else pySplitAux rest (c :: acc)

/-- Python str.split with no argument: the maximal whitespace-free nonempty
runs, ignoring leading and trailing whitespace. -/
def pySplit (s : List Char) : List (List Char) := pySplitAux s []

/-- Python " ".join of a list of words. -/
def joinSpace : List (List Char) → List Char
  | [] => []
  | [w] => w
  | w :: rest => w ++ ' ' :: joinSpace rest

/-- truncate_words (utils.py lines 27-31). -/
def truncate_words (s : List Char) (limit : Nat) : List Char :=
  let words := pySplit (pyStrip s)
  if words.length ≤ limit then pyStrip s
  else joinSpace (words.take limit)

/-- Substring occurrence test: needle occurs somewhere in hay.  Used to model
re.search of a pattern that is a literal word. -/
def containsSub (needle hay : List Char) : Bool :=
  hay.tails.any (fun t => needle.isPrefixOf t)

/-- re.search of an alternation of literal lower-case keywords against a text,
with re.I realised by lower-casing the text. -/
def kwMatch (kws : List (List Char)) (text : List Char) : Bool :=
  kws.any (fun k => containsSub k (pyLower text))

/-- _ADJECTIVES (utils.py lines 52-55). -/
def _ADJECTIVES : List (List Char) :=
  ["smoky".toList, "creamy".toList, "zesty".toList, "aromatic".toList,
   "spiced".toList, "buttery".toList, "char-grilled".toList, "tangy".toList,
   "hand-tossed".toList, "oven-fresh".toList, "herb-infused".toList,
   "buttermilk".toList, "velvety".toList, "caramelized".toList,
   "crisp".toList, "juicy".toList]

/-- _UPSELL_BY_KEYWORD (utils.py lines 57-67): each regex alternation of
literal keywords is modelled as the list of its alternatives. -/
def _UPSELL_BY_KEYWORD : List (List (List Char) × List Char) :=
  [(["paneer".toList, "tikka".toList], "Mango Lassi".toList),
   (["pizza".toList, "margherita".toList, "pepperoni".toList], "Garlic Bread".toList),
   (["biryani".toList], "Raita".toList),
   (["burger".toList, "cheese".toList], "Crispy Fries".toList),
   (["noodle".toList, "ramen".toList], "Spring Rolls".toList),
   (["tandoori".toList, "kebab".toList], "Mint Chutney".toList),
   (["pasta".toList], "Garlic Bread".toList),
   (["salad".toList], "Iced Tea".toList),
   (["wrap".toList, "roll".toList], "Masala Fries".toList)]

/-- Modelled from the spec: stands in for the composition of hashlib.sha256
(Python standard library, not in src/) with digest-to-integer conversion of
utils.py line 75.  Spec section 4.2 step 1 requires only a deterministic pure
mapping from the lower-cased name to a large integer seed. -/
def sha256seed (s : List Char) : Nat :=
  s.foldl (fun h c => (h * 31 + c.toNat) % 2 ^ 256) 7

/-- Modelled from the spec: _deterministic_choice (utils.py lines 69-71)
delegates to random.Random(seed).choice of the Python standard library (not
in src/).  Spec sections 4.2 and 9 require only that the same seed always
selects the same element, naming hash-mod-N indexing as an acceptable
realisation. -/
def _deterministic_choice (seq : List (List Char)) (seed : Nat) : List Char :=
  seq.getD (seed % seq.length) []

/-- First-match-wins scan of an ordered rule table, mirroring the for/break
loop of utils.py lines 82-85. -/
def firstMatchSubject : List (List (List Char) × List Char) → List Char → Option (List Char)
  | [], _ => none
  | (pat, subj) :: rest, text =>
    if kwMatch pat text then some subj else firstMatchSubject rest text

/-- mock_generate (utils.py lines 73-87).  The model_hint argument is accepted
and ignored exactly as in the source. -/
def mock_generate (item_name model_hint : List Char) : List Char × List Char :=
  let seed := sha256seed (pyLower item_name)
  let adj1 := _deterministic_choice _ADJECTIVES seed
  let adj2 := _deterministic_choice _ADJECTIVES (seed / 2)
  let base := item_name ++ ": ".toList ++ adj1 ++ ", ".toList ++ adj2 ++
    " and crafted to highlight balanced spices and textures. Served hot for maximum flavor.".toList
  let description := truncate_words base 30
  let upsell := (firstMatchSubject _UPSELL_BY_KEYWORD item_name).getD ("Iced Tea".toList)
  (description, "Pair it with a ".toList ++ upsell ++ "!".toList)

/-- Failures of a provider call: the missing-credential RuntimeError of
utils.py lines 96-97 and 159-160, and the transport failures (non-2xx status
raised by raise_for_status, timeouts, malformed bodies). -/
inductive ProviderError
  | missingCredential
  | transport
deriving DecidableEq, Repr

/-- The reply of a chat completion endpoint, as consumed by the code after the
standard-library steps resp.json() and json.loads(content): content is the
primary content string; parsed is some (description, upsell) when the content
parses as a JSON object (the two fields defaulted to the empty string by
.get), and none when json.loads or the field access raises. -/
structure ChatReply where
  parsed : Option (List Char × List Char)
  content : List Char
deriving DecidableEq, Repr

/-- The prefix check of utils.py line 123: upsell.lower().startswith("pair it with"). -/
def lowerStartsPairItWith (u : List Char) : Bool :=
  ("pair it with".toList).isPrefixOf (pyLower u)

/-- Codepoints of the line boundaries recognised by Python str.splitlines,
besides the carriage-return/line-feed pair handled separately. -/
def pyLineBreakCodes : List Nat := [10, 11, 12, 13, 28, 29, 30, 133, 8232, 8233]

def isPyLineBreak (c : Char) : Bool := pyLineBreakCodes.contains c.toNat

/-- Helper for pySplitlines: accumulates the current line in reverse. -/
def pySplitlinesAux (cur : List Char) : List Char → List (List Char)
  | [] => if cur.isEmpty then [] else [cur.reverse]
  | '\r' :: '\n' :: rest => cur.reverse :: pySplitlinesAux [] rest
  | c :: rest =>
    if isPyLineBreak c then cur.reverse :: pySplitlinesAux [] rest
    else pySplitlinesAux (c :: cur) rest

/-- Python str.splitlines. -/
def pySplitlines (s : List Char) : List (List Char) := pySplitlinesAux [] s

/-- The comprehension of utils.py line 129 and 191: strip every line of the
content and keep the nonempty ones. -/
def contentLines (content : List Char) : List (List Char) :=
  ((pySplitlines content).map pyStrip).filter (fun l => !l.isEmpty)

/-- The reply post-processing of call_openai (utils.py lines 118-132):
the JSON branch, with the except branch on parse failure. -/
def openai_extract (parsed : Option (List Char × List Char)) (content : List Char) :
    List Char × List Char :=
  match parsed with
  | some (d, u) =>
    let description := truncate_words (pyStrip d) 30
    let upsell := pyStrip u
    (description,
     if lowerStartsPairItWith upsell then upsell
     else "Pair it with ".toList ++ upsell ++ ".".toList)
  | none =>
    let lines := contentLines content
    (match lines with
     | [] => "Tasty and satisfying.".toList
     | l0 :: _ => truncate_words l0 30,
     match lines with
     | _ :: l1 :: _ => l1
     | _ => "Pair it with a refreshing beverage!".toList)

/-- The reply post-processing of call_deepseek (utils.py lines 182-194);
identical to the OpenAI one except that the description is not stripped
before truncation (line 185). -/
def deepseek_extract (parsed : Option (List Char × List Char)) (content : List Char) :
    List Char × List Char :=
  match parsed with
  | some (d, u) =>
    let description := truncate_words d 30
    let upsell := pyStrip u
    (description,
     if lowerStartsPairItWith upsell then upsell
     else "Pair it with ".toList ++ upsell ++ ".".toList)
  | none =>
    let lines := contentLines content
    (match lines with
     | [] => "Tasty and satisfying.".toList
     | l0 :: _ => truncate_words l0 30,
     match lines with
     | _ :: l1 :: _ => l1
     | _ => "Pair it with a refreshing beverage!".toList)

/-- call_openai (utils.py lines 90-132).  The HTTP transport is an explicit
argument: an error models a requests exception or a non-2xx status raised by
raise_for_status; an ok value carries the reply.  When OPENAI_API_KEY is
absent the function raises before touching the transport. -/
def call_openai (apiKey : Option (List Char))
    (transport : Except ProviderError ChatReply) :
    Except ProviderError (List Char × List Char) :=
  match apiKey with
  | none => Except.error ProviderError.missingCredential
  | some _ =>
    match transport with
    | Except.error e => Except.error e
    | Except.ok reply => Except.ok (openai_extract reply.parsed reply.content)

/-- call_deepseek (utils.py lines 152-194), with DEEPSEEK_API_KEY. -/
def call_deepseek (apiKey : Option (List Char))
    (transport : Except ProviderError ChatReply) :
    Except ProviderError (List Char × List Char) :=
  match apiKey with
  | none => Except.error ProviderError.missingCredential
  | some _ =>
    match transport with
    | Except.error e => Except.error e
    | Except.ok reply => Except.ok (deepseek_extract reply.parsed reply.content)

/-- _SERP_UPSELL_CANDIDATES (utils.py lines 202-215): each regex alternation
of literal lower-case keywords is modelled as the list of its alternatives. -/
def _SERP_UPSELL_CANDIDATES : List (List (List Char) × List Char) :=
  [(["lassi".toList], "a Mango Lassi".toList),
   (["garlic bread".toList], "Garlic Bread".toList),
   (["naan".toList, "butter naan".toList], "Butter Naan".toList),
   (["raita".toList], "Raita".toList),
   (["fries".toList, "chips".toList], "Crispy Fries".toList),
   (["salad".toList], "a Fresh Salad".toList),
   (["iced tea".toList, "lemon tea".toList], "Iced Tea".toList),
   (["soda".toList, "cola".toList], "a Chilled Soda".toList),
   (["mint chutney".toList], "Mint Chutney".toList),
   (["spring rolls".toList], "Spring Rolls".toList),
   (["gulab jamun".toList], "Gulab Jamun".toList)]

/-- serp_pick_upsell_from_text (utils.py lines 217-222): the text is
lower-cased and the ordered candidate list is scanned first-match-wins. -/
def serp_pick_upsell_from_text (text : List Char) : Option (List Char) :=
  firstMatchSubject _SERP_UPSELL_CANDIDATES text

/-- call_serpapi_for_upsell (utils.py lines 224-273).  The transport argument
models the three search queries of the try block: an error is an exception
raised inside the block (caught at line 272); an ok value carries, per query,
none for a non-ok response (skipped at line 246) or the aggregated
title-and-snippet text of its organic results.  When SERPAPI_KEY is absent
the function returns the generic beverage line before touching the
transport. -/
def call_serpapi_for_upsell (apiKey : Option (List Char))
    (transport : Except Unit (List (Option (List Char))))
    (item_name : List Char) : List Char :=
  match apiKey with
  | none => "Pair it with a refreshing beverage!".toList
  | some _ =>
    match transport with
    | Except.error _ => "Pair it with Iced Tea!".toList
    | Except.ok results =>
      let found := results.findSome? (fun r => r.bind serp_pick_upsell_from_text)
      let found := match found with
        | some f => f
        | none =>
          if kwMatch ["paneer".toList, "tikka".toList, "tandoori".toList,
              "kebab".toList, "biryani".toList, "naan".toList] item_name then
            "a Mango Lassi".toList
          else if kwMatch ["pizza".toList, "pasta".toList] item_name then
            "Garlic Bread".toList
          else if kwMatch ["burger".toList] item_name then
            "Crispy Fries".toList
          else "Iced Tea".toList
      "Pair it with ".toList ++ found ++ "!".toList

/-- WINDOW_SEC (utils.py line 135). -/
def WINDOW_SEC : ℚ := 15 * 60

/-- MAX_REQUESTS (utils.py line 136). -/
def MAX_REQUESTS : Nat := 60

/-- The eviction loop of check_rate_limit (utils.py lines 144-145): pop from
the front while the front timestamp is older than now minus the window. -/
def evictOld (now : ℚ) (dq : List ℚ) : List ℚ :=
  dq.dropWhile (fun t => decide (WINDOW_SEC < now - t))

/-- check_rate_limit (utils.py lines 140-149) for one client bucket: the
current time and the bucket contents are explicit; the result pairs the
returned boolean with the bucket contents after the call. -/
def check_rate_limit (now : ℚ) (dq : List ℚ) : Bool × List ℚ :=
  let d := evictOld now dq
  if MAX_REQUESTS ≤ d.length then (false, d)
  else (true, d ++ [now])

/-- A sequence of check_rate_limit calls for one client at the given times,
starting from the given bucket: returns the list of admitted call times and
the final bucket. -/
def runCalls : List ℚ → List ℚ → List ℚ × List ℚ
  | [], st => ([], st)
  | t :: ts, st =>
    let r := check_rate_limit t st
    let rest := runCalls ts r.2
    (if r.1 then t :: rest.1 else rest.1, rest.2)

/-- Timestamp t lies in the trailing window anchored at x, i.e. in the
half-open interval from x exclusive to x plus WINDOW_SEC inclusive. -/
def inWin (x t : ℚ) : Bool := decide (x < t) && decide (t ≤ x + WINDOW_SEC)

/-- build_prompt (utils.py lines 40-49). -/
def build_prompt (item_name : List Char) : List Char × List Char :=
  ("You are a concise menu copywriting assistant for restaurants. Always produce a short, vivid description and one upsell combo suggestion. The description must be at most 30 words.".toList,
   "Task: Write a short, attractive menu description and a single upsell combo.\nConstraints: Description <= 30 words. Tone: appetizing, clear, not flowery.\nInput Item: \"".toList
     ++ item_name ++
   "\"\nOutput JSON with keys: description (string), upsell (string starting with \x27Pair it with \x27).".toList)

/-- The responses of the view generate_item_details (views.py):
only the statuses reachable after the method and JSON-parse checks of the
transport layer are modelled. -/
inductive HttpResp
  | rateLimited
  | badInput (msg : List Char)
  | ok (itemName model description upsell : List Char) (wordCount : Nat)
deriving DecidableEq, Repr

/-- Python falsy-or defaulting of an optional request field:
payload.get(k) or default. -/
def pyOrDefault (o : Option (List Char)) (d : List Char) : List Char :=
  match o with
  | none => d
  | some s => if s.isEmpty then d else s

/-- generate_item_details (views.py lines 24-84), after method check, client
identifier resolution and JSON body parsing.  The per-client bucket and the
call time stand in for the global rate-limiter table; the provider transports
are explicit arguments.  The except branch of views.py lines 70-73 is
reachable exactly from a call_openai failure, since mock_generate is total
and call_serpapi_for_upsell catches its exceptions internally. -/
def generate_item_details (now : ℚ) (st : List ℚ)
    (itemNameRaw : List Char) (modeField modelField : Option (List Char))
    (openaiKey serpKey : Option (List Char))
    (openaiTransport : Except ProviderError ChatReply)
    (serpTransport : Except Unit (List (Option (List Char)))) :
    HttpResp × List ℚ :=
  let rl := check_rate_limit now st
  if !rl.1 then (HttpResp.rateLimited, rl.2)
  else
    let mode := pyLower (pyOrDefault modeField ("mock".toList))
    let model_choice := pyLower (pyOrDefault modelField ("gpt-4".toList))
    match sanitize_item_name itemNameRaw with
    | Except.error e => (HttpResp.badInput e, rl.2)
    | Except.ok item_name =>
      let gen : (List Char × List Char) × List Char :=
        if mode = "openai".toList then
          let model_name := if containsSub ("3.5".toList) model_choice
            then "gpt-3.5-turbo".toList else "gpt-4o-mini".toList
          match call_openai openaiKey openaiTransport with
          | Except.ok du => (du, "openai-".toList ++ model_name)
          | Except.error _ =>
            (mock_generate item_name model_choice, "mock-".toList ++ model_choice)
        else if mode = "serpapi".toList then
          (((mock_generate item_name model_choice).1,
            call_serpapi_for_upsell serpKey serpTransport item_name),
           "serpapi+mock-desc".toList)
        else
          (mock_generate item_name model_choice, "mock-".toList ++ model_choice)
      (HttpResp.ok item_name gen.2 gen.1.1 gen.1.2 (pySplit gen.1.1).length, rl.2)

/-! ### Lemmas about stripping and the character class -/

theorem mem_dropWhile_of_not {p : Char → Bool} {c : Char} {l : List Char}
    (hm : c ∈ l) (hp : p c = false) : c ∈ l.dropWhile p := by
  induction l with
  | nil => cases hm
  | cons a t ih =>
    rw [List.dropWhile_cons]
    rcases List.mem_cons.mp hm with rfl | hm
    · simp [hp]
    · split
      · exact ih hm
      · exact List.mem_cons_of_mem _ hm

theorem mem_of_mem_pyStrip {c : Char} {s : List Char} (h : c ∈ pyStrip s) : c ∈ s := by
  unfold pyStrip at h
  rw [List.mem_reverse] at h
  have h2 := (List.dropWhile_sublist (l := (s.dropWhile isPySpace).reverse) isPySpace).subset h
  rw [List.mem_reverse] at h2
  exact (List.dropWhile_sublist (l := s) isPySpace).subset h2

theorem mem_pyStrip_of_not_space {c : Char} {s : List Char}
    (hm : c ∈ s) (hs : isPySpace c = false) : c ∈ pyStrip s := by
  unfold pyStrip
  rw [List.mem_reverse]
  apply mem_dropWhile_of_not _ hs
  rw [List.mem_reverse]
  exact mem_dropWhile_of_not hm hs

theorem allowedChar_of_space {c : Char} (h : isPySpace c = true) :
    allowedChar c = true := by
  unfold allowedChar
  rw [h]
  simp

theorem all_allowed_iff_pyStrip (s : List Char) :
    (∀ c ∈ s, allowedChar c = true) ↔ (∀ c ∈ pyStrip s, allowedChar c = true) := by
  constructor
  · intro h c hc
    exact h c (mem_of_mem_pyStrip hc)
  · intro h c hc
    cases hsp : isPySpace c with
    | true => exact allowedChar_of_space hsp
    | false => exact h c (mem_pyStrip_of_not_space hc hsp)

/-- Elimination form of a successful sanitization. -/
theorem sanitize_ok_elim {s r : List Char} (h : sanitize_item_name s = Except.ok r) :
    2 ≤ (pyStrip s).length ∧ (pyStrip s).length ≤ 120 ∧
    (∀ c ∈ pyStrip s, allowedChar c = true) ∧ r = collapseWS (pyStrip s) := by
  unfold sanitize_item_name at h
  split at h
  · cases h
  next hlen =>
    split at h
    · cases h
    next hpm =>
      injection h with h
      simp only [Bool.or_eq_true, decide_eq_true_eq, not_or, Nat.not_lt] at hlen
      simp only [Bool.not_eq_true', Bool.not_eq_false] at hpm
      unfold allowedPatternMatch at hpm
      rw [Bool.and_eq_true, List.all_eq_true] at hpm
      exact ⟨hlen.1, hlen.2, fun c hc => hpm.2 c hc, h.symm⟩

/-- Introduction form of a successful sanitization. -/
theorem sanitize_ok_intro {s : List Char}
    (hlo : 2 ≤ (pyStrip s).length) (hhi : (pyStrip s).length ≤ 120)
    (hall : ∀ c ∈ pyStrip s, allowedChar c = true) :
    sanitize_item_name s = Except.ok (collapseWS (pyStrip s)) := by
  unfold sanitize_item_name
  have hne : (pyStrip s).isEmpty = false := by
    cases hps : pyStrip s with
    | nil => rw [hps] at hlo; cases hlo
    | cons a t => simp
  have hpm : allowedPatternMatch (pyStrip s) = true := by
    unfold allowedPatternMatch
    rw [hne]
    simp only [Bool.not_false, Bool.true_and, List.all_eq_true]
    exact hall
  rw [if_neg (by simp [Nat.not_lt.mpr hlo, Nat.not_lt.mpr hhi]), if_neg (by simp [hpm])]

theorem sanitize_ok_iff (s : List Char) :
    (∃ r, sanitize_item_name s = Except.ok r) ↔
      (2 ≤ (pyStrip s).length ∧ (pyStrip s).length ≤ 120 ∧
       ∀ c ∈ s, allowedChar c = true) := by
  constructor
  · rintro ⟨r, hr⟩
    obtain ⟨h1, h2, h3, _⟩ := sanitize_ok_elim hr
    exact ⟨h1, h2, (all_allowed_iff_pyStrip s).mpr h3⟩
  · rintro ⟨h1, h2, h3⟩
    exact ⟨_, sanitize_ok_intro h1 h2 ((all_allowed_iff_pyStrip s).mp h3)⟩

/-! ### Lemmas about whitespace collapsing -/

/-- Two adjacent whitespace characters occur somewhere in the string. -/
def hasDoubleWS : List Char → Bool
  | [] => false
  | [_] => false
  | a :: b :: rest => (isPySpace a && isPySpace b) || hasDoubleWS (b :: rest)

/-- The first character exists and is whitespace. -/
def headIsSpace : List Char → Bool
  | [] => false
  | c :: _ => isPySpace c

theorem collapseWSAux_true_head (s : List Char) :
    headIsSpace (collapseWSAux true s) = false := by
  induction s with
  | nil => rfl
  | cons c rest ih =>
    unfold collapseWSAux
    cases hc : isPySpace c with
    | true => exact ih
    | false => simp [headIsSpace, hc]

theorem collapseWSAux_no_double (s : List Char) :
    ∀ b, hasDoubleWS (collapseWSAux b s) = false := by
  induction s with
  | nil => intro b; rfl
  | cons c rest ih =>
    intro b
    unfold collapseWSAux
    cases hc : isPySpace c with
    | true =>
      cases b with
      | true => exact ih true
      | false =>
        rw [if_pos rfl, if_neg (by simp)]
        cases hrec : collapseWSAux true rest with
        | nil => rfl
        | cons d t =>
          have h1 := ih true
          have h2 := collapseWSAux_true_head rest
          rw [hrec] at h1 h2
          simp only [headIsSpace] at h2
          simp [hasDoubleWS, h1, h2]
    | false =>
      rw [if_neg (by simp)]
      cases hrec : collapseWSAux false rest with
      | nil => rfl
      | cons d t =>
        have h1 := ih false
        rw [hrec] at h1
        simp [hasDoubleWS, h1, hc]

theorem collapseWS_no_double (s : List Char) : hasDoubleWS (collapseWS s) = false :=
  collapseWSAux_no_double s false

theorem collapseWSAux_length_le (s : List Char) :
    ∀ b, (collapseWSAux b s).length ≤ s.length := by
  induction s with
  | nil => intro b; exact Nat.le_refl 0
  | cons c rest ih =>
    intro b
    unfold collapseWSAux
    cases hc : isPySpace c with
    | true =>
      cases b with
      | true => exact Nat.le_succ_of_le (ih true)
      | false =>
        rw [if_pos rfl, if_neg (by simp)]
        exact Nat.succ_le_succ (ih true)
    | false =>
      rw [if_neg (by simp)]
      exact Nat.succ_le_succ (ih false)

/-- Collapsing preserves the non-whitespace characters count. -/
theorem collapseWSAux_countP_nonspace (s : List Char) :
    ∀ b, (collapseWSAux b s).countP (fun c => !isPySpace c) =
      s.countP (fun c => !isPySpace c) := by
  induction s with
  | nil => intro b; rfl
  | cons c rest ih =>
    intro b
    unfold collapseWSAux
    cases hc : isPySpace c with
    | true =>
      have hsp : isPySpace ' ' = true := by decide
      cases b with
      | true =>
        rw [if_pos rfl, if_pos rfl, ih true, List.countP_cons_of_neg _ _ (by simp [hc])]
      | false =>
        rw [if_pos rfl, if_neg (by simp), List.countP_cons_of_neg _ _ (by simp [hsp]),
          List.countP_cons_of_neg _ _ (by simp [hc]), ih true]
    | false =>
      rw [if_neg (by simp), List.countP_cons_of_pos _ _ (by simp [hc]),
        List.countP_cons_of_pos _ _ (by simp [hc]), ih false]

/-- Every character of the collapsed string is a character of the original
string or the space substituted for a run. -/
theorem mem_collapseWSAux (s : List Char) :
    ∀ b c, c ∈ collapseWSAux b s → c ∈ s ∨ c = ' ' := by
  induction s with
  | nil => intro b c h; cases h
  | cons a rest ih =>
    intro b c h
    unfold collapseWSAux at h
    cases ha : isPySpace a with
    | true =>
      rw [ha] at h
      cases b with
      | true =>
        simp only [if_true] at h
        rcases ih true c h with h | h
        · exact Or.inl (List.mem_cons_of_mem _ h)
        · exact Or.inr h
      | false =>
        simp only [Bool.false_eq_true, if_false] at h
        rcases List.mem_cons.mp h with rfl | h
        · exact Or.inr rfl
        · rcases ih true c h with h | h
          · exact Or.inl (List.mem_cons_of_mem _ h)
          · exact Or.inr h
    | false =>
      rw [ha] at h
      simp only [Bool.false_eq_true, if_false] at h
      rcases List.mem_cons.mp h with rfl | h
      · exact Or.inl (List.mem_cons_self _ _)
      · rcases ih false c h with h | h
        · exact Or.inl (List.mem_cons_of_mem _ h)
        · exact Or.inr h

theorem dropWhile_cons_not {p : Char → Bool} {l : List Char} {c : Char} {t : List Char}
    (h : l.dropWhile p = c :: t) : p c = false := by
  induction l with
  | nil => cases h
  | cons a r ih =>
    rw [List.dropWhile_cons] at h
    split at h
    · exact ih h
    next hp =>
      injection h with h1 _
      subst h1
      simpa using hp

/-- The stripped string is an initial segment of the string with its leading
whitespace removed. -/
theorem pyStrip_append_eq (s : List Char) :
    ∃ t, pyStrip s ++ t = s.dropWhile isPySpace := by
  obtain ⟨u, hu⟩ := List.dropWhile_suffix (l := (s.dropWhile isPySpace).reverse) isPySpace
  refine ⟨u.reverse, ?_⟩
  have h2 := congrArg List.reverse hu
  rw [List.reverse_append, List.reverse_reverse] at h2
  exact h2

theorem pyStrip_head_not_space {s : List Char} {c : Char} {t : List Char}
    (h : pyStrip s = c :: t) : isPySpace c = false := by
  obtain ⟨u, hu⟩ := pyStrip_append_eq s
  rw [h] at hu
  exact dropWhile_cons_not hu.symm

theorem pyStrip_getLast_not_space {s : List Char} (h : pyStrip s ≠ []) :
    isPySpace ((pyStrip s).getLast h) = false := by
  unfold pyStrip at h ⊢
  rw [List.getLast_reverse]
  exact List.head_dropWhile_not isPySpace _ _

/-- A string of length at least two whose two end characters are not
whitespace has at least two non-whitespace characters. -/
theorem countP_nonspace_ge_two {l : List Char} (hlen : 2 ≤ l.length)
    (hhead : headIsSpace l = false)
    (hlast : ∀ h : l ≠ [], isPySpace (l.getLast h) = false) :
    2 ≤ l.countP (fun c => !isPySpace c) := by
  cases l with
  | nil => cases hlen
  | cons c t =>
    cases ht : t with
    | nil => rw [ht] at hlen; simp at hlen
    | cons d t2 =>
      subst ht
      have hc : isPySpace c = false := by simpa [headIsSpace] using hhead
      have htne : (d :: t2) ≠ [] := by simp
      have hlast2 : isPySpace ((d :: t2).getLast htne) = false := by
        have := hlast (by simp)
        rwa [List.getLast_cons htne] at this
      have hmem : (d :: t2).getLast htne ∈ d :: t2 := List.getLast_mem htne
      have h1 : 0 < (d :: t2).countP (fun c => !isPySpace c) := by
        rw [List.countP_pos_iff]
        exact ⟨_, hmem, by simp [hlast2]⟩
      rw [List.countP_cons_of_pos _ _ (by simp [hc])]
      omega

/-- Every successfully sanitized value keeps the length bounds and the
character class. -/
theorem sanitize_result_bounds {s r : List Char}
    (h : sanitize_item_name s = Except.ok r) :
    2 ≤ r.length ∧ r.length ≤ 120 ∧ ∀ c ∈ r, allowedChar c = true := by
  obtain ⟨h1, h2, h3, hr⟩ := sanitize_ok_elim h
  subst hr
  refine ⟨?_, ?_, ?_⟩
  · have hhead : headIsSpace (pyStrip s) = false := by
      cases hps : pyStrip s with
      | nil => rw [hps] at h1; cases h1
      | cons c t => simpa [headIsSpace] using pyStrip_head_not_space hps
    have hge2 : 2 ≤ (pyStrip s).countP (fun c => !isPySpace c) :=
      countP_nonspace_ge_two h1 hhead (fun hne => pyStrip_getLast_not_space hne)
    have hcount := collapseWSAux_countP_nonspace (pyStrip s) false
    have hle : (collapseWS (pyStrip s)).countP (fun c => !isPySpace c) ≤
        (collapseWS (pyStrip s)).length := List.countP_le_length _
    unfold collapseWS at hcount hle ⊢
    omega
  · exact le_trans (collapseWSAux_length_le (pyStrip s) false) h2
  · intro c hc
    rcases mem_collapseWSAux (pyStrip s) false c hc with hm | rfl
    · exact h3 c hm
    · decide

/-! ### Lemmas about splitting into words, joining, and truncation -/

/-- The words produced by splitting are nonempty and whitespace-free. -/
theorem pySplitAux_words_good (s : List Char) :
    ∀ acc, (∀ c ∈ acc, isPySpace c = false) →
      ∀ w ∈ pySplitAux s acc, w ≠ [] ∧ ∀ c ∈ w, isPySpace c = false := by
  induction s with
  | nil =>
    intro acc hacc w hw
    unfold pySplitAux at hw
    split at hw
    · cases hw
    next hne =>
      rw [List.mem_singleton] at hw
      subst hw
      refine ⟨by simpa using hne, ?_⟩
      intro c hc
      exact hacc c (List.mem_reverse.mp hc)
  | cons c rest ih =>
    intro acc hacc w hw
    unfold pySplitAux at hw
    cases hc : isPySpace c with
    | true =>
      rw [hc, if_pos rfl] at hw
      by_cases hacc0 : acc.isEmpty
      · rw [if_pos hacc0] at hw
        exact ih [] (by intro x hx; cases hx) w hw
      · rw [if_neg hacc0] at hw
        rcases List.mem_cons.mp hw with rfl | hw
        · refine ⟨?_, ?_⟩
          · intro habs
            rw [List.reverse_eq_nil_iff] at habs
            rw [habs] at hacc0
            exact hacc0 rfl
          · intro x hx
            exact hacc x (List.mem_reverse.mp hx)
        · exact ih [] (by intro x hx; cases hx) w hw
    | false =>
      rw [hc] at hw
      rw [if_neg (by simp)] at hw
      refine ih (c :: acc) ?_ w hw
      intro x hx
      rcases List.mem_cons.mp hx with rfl | hx
      · exact hc
      · exact hacc x hx

theorem pySplit_words_good (s : List Char) :
    ∀ w ∈ pySplit s, w ≠ [] ∧ ∀ c ∈ w, isPySpace c = false :=
  pySplitAux_words_good s [] (by intro x hx; cases hx)

/-- Scanning a whitespace-free word accumulates it. -/
theorem pySplitAux_scan_word (w : List Char) :
    ∀ s acc, (∀ c ∈ w, isPySpace c = false) →
      pySplitAux (w ++ s) acc = pySplitAux s (w.reverse ++ acc) := by
  induction w with
  | nil => intro s acc _; rfl
  | cons c w2 ih =>
    intro s acc hw
    have hc : isPySpace c = false := hw c (List.mem_cons_self _ _)
    show pySplitAux (c :: (w2 ++ s)) acc = _
    simp only [pySplitAux]
    rw [hc, if_neg (by simp)]
    rw [ih s (c :: acc) (fun x hx => hw x (List.mem_cons_of_mem _ hx))]
    congr 1
    simp

/-- Scanning trailing whitespace only flushes the accumulator. -/
theorem pySplitAux_spaces (sp : List Char) :
    ∀ acc, (∀ c ∈ sp, isPySpace c = true) →
      pySplitAux sp acc = if acc.isEmpty then [] else [acc.reverse] := by
  induction sp with
  | nil => intro acc _; rfl
  | cons c sp2 ih =>
    intro acc hsp
    have hc : isPySpace c = true := hsp c (List.mem_cons_self _ _)
    unfold pySplitAux
    rw [hc, if_pos rfl]
    have hrest : ∀ x ∈ sp2, isPySpace x = true :=
      fun x hx => hsp x (List.mem_cons_of_mem _ hx)
    by_cases hacc : acc.isEmpty
    · rw [if_pos hacc, if_pos hacc, ih [] hrest]
      rfl
    · rw [if_neg hacc, if_neg hacc, ih [] hrest]
      rfl

/-- Splitting the space-join of good words recovers the words. -/
theorem pySplit_joinSpace (ws : List (List Char))
    (hws : ∀ w ∈ ws, w ≠ [] ∧ ∀ c ∈ w, isPySpace c = false) :
    pySplit (joinSpace ws) = ws := by
  induction ws with
  | nil => rfl
  | cons w rest ih =>
    obtain ⟨hwne, hwgood⟩ := hws w (List.mem_cons_self _ _)
    have hrest : ∀ v ∈ rest, v ≠ [] ∧ ∀ c ∈ v, isPySpace c = false :=
      fun v hv => hws v (List.mem_cons_of_mem _ hv)
    have hne2 : w.reverse.isEmpty ≠ true :=
      fun h => hwne (List.reverse_eq_nil_iff.mp (List.isEmpty_iff.mp h))
    cases rest with
    | nil =>
      have h1 : joinSpace [w] = w ++ [] := by simp [joinSpace]
      show pySplitAux (joinSpace [w]) [] = [w]
      rw [h1, pySplitAux_scan_word w [] [] hwgood, List.append_nil]
      unfold pySplitAux
      rw [if_neg hne2, List.reverse_reverse]
    | cons r rest2 =>
      have hjoin : joinSpace (w :: r :: rest2) = w ++ ' ' :: joinSpace (r :: rest2) := rfl
      show pySplitAux (joinSpace (w :: r :: rest2)) [] = w :: r :: rest2
      rw [hjoin, pySplitAux_scan_word w (' ' :: joinSpace (r :: rest2)) [] hwgood,
        List.append_nil]
      unfold pySplitAux
      rw [show isPySpace ' ' = true from by decide, if_pos rfl, if_neg hne2,
        List.reverse_reverse]
      exact congrArg (w :: ·) (ih hrest)

/-- Dropping leading whitespace does not change the split. -/
theorem pySplitAux_dropWhile (s : List Char) :
    pySplitAux (s.dropWhile isPySpace) [] = pySplitAux s [] := by
  induction s with
  | nil => rfl
  | cons c rest ih =>
    rw [List.dropWhile_cons]
    cases hc : isPySpace c with
    | true =>
      rw [if_pos (by simp [hc])]
      rw [ih]
      show _ = pySplitAux (c :: rest) []
      simp only [pySplitAux]
      rw [hc]
      simp
    | false => rw [if_neg (by simp [hc])]

/-- Appending trailing whitespace does not change the split. -/
theorem pySplitAux_append_spaces (m : List Char) :
    ∀ sp acc, (∀ c ∈ sp, isPySpace c = true) →
      pySplitAux (m ++ sp) acc = pySplitAux m acc := by
  induction m with
  | nil =>
    intro sp acc hsp
    rw [List.nil_append, pySplitAux_spaces sp acc hsp]
    show _ = pySplitAux [] acc
    simp only [pySplitAux]
  | cons c m2 ih =>
    intro sp acc hsp
    show pySplitAux (c :: (m2 ++ sp)) acc = pySplitAux (c :: m2) acc
    simp only [pySplitAux]
    cases hc : isPySpace c with
    | true =>
      rw [if_pos rfl, if_pos rfl]
      by_cases hacc : acc.isEmpty = true
      · rw [if_pos hacc, if_pos hacc, ih sp [] hsp]
      · rw [if_neg hacc, if_neg hacc, ih sp [] hsp]
    | false =>
      rw [if_neg (by simp), if_neg (by simp), ih sp (c :: acc) hsp]

/-- Decomposition of the leading-whitespace-free string into the stripped
string and its trailing whitespace. -/
theorem pyStrip_decomp (s : List Char) :
    ∃ t, (∀ c ∈ t, isPySpace c = true) ∧
      pyStrip s ++ t = s.dropWhile isPySpace := by
  refine ⟨(((s.dropWhile isPySpace).reverse).takeWhile isPySpace).reverse, ?_, ?_⟩
  · intro c hc
    exact List.mem_takeWhile_imp (List.mem_reverse.mp hc)
  · unfold pyStrip
    rw [← List.reverse_append]
    rw [List.takeWhile_append_dropWhile]
    exact List.reverse_reverse _

/-- Stripping does not change the split. -/
theorem pySplit_pyStrip (s : List Char) : pySplit (pyStrip s) = pySplit s := by
  obtain ⟨t, ht, hdec⟩ := pyStrip_decomp s
  unfold pySplit
  rw [← pySplitAux_dropWhile s, ← hdec, pySplitAux_append_spaces (pyStrip s) t [] ht]

/-- truncate_words with at most limit words returns the stripped input. -/
theorem truncate_words_le {s : List Char} {limit : Nat}
    (h : (pySplit s).length ≤ limit) : truncate_words s limit = pyStrip s := by
  unfold truncate_words
  rw [if_pos (by rw [pySplit_pyStrip]; exact h)]

/-- truncate_words with more than limit words keeps the first limit words. -/
theorem truncate_words_gt {s : List Char} {limit : Nat}
    (h : limit < (pySplit s).length) :
    truncate_words s limit = joinSpace ((pySplit s).take limit) := by
  unfold truncate_words
  rw [if_neg (by rw [pySplit_pyStrip]; omega), pySplit_pyStrip]

/-- The words of the truncated string are exactly the first limit words. -/
theorem pySplit_truncate_words_gt {s : List Char} {limit : Nat}
    (h : limit < (pySplit s).length) :
    pySplit (truncate_words s limit) = (pySplit s).take limit := by
  rw [truncate_words_gt h]
  apply pySplit_joinSpace
  intro w hw
  exact pySplit_words_good s w (List.mem_of_mem_take hw)

/-- The truncated string never has more than limit words. -/
theorem truncate_words_count_le (s : List Char) (limit : Nat) :
    (pySplit (truncate_words s limit)).length ≤ limit := by
  by_cases h : (pySplit s).length ≤ limit
  · rw [truncate_words_le h, pySplit_pyStrip]
    exact h
  · rw [pySplit_truncate_words_gt (by omega)]
    rw [List.length_take]
    omega

/-! ### Lemmas about the rate limiter -/

theorem inWin_iff {x u : ℚ} : inWin x u = true ↔ (x < u ∧ u ≤ x + WINDOW_SEC) := by
  simp [inWin]

theorem dropWhile_eq_self_of_all {p : ℚ → Bool} {l : List ℚ}
    (h : ∀ u ∈ l, p u = false) : l.dropWhile p = l := by
  cases l with
  | nil => rfl
  | cons a t =>
    rw [List.dropWhile_cons, if_neg (by simp [h a (List.mem_cons_self _ _)])]

/-- On a sorted bucket, the front eviction loop removes exactly the timestamps
older than the window. -/
theorem evictOld_sorted_filter {now : ℚ} {st : List ℚ}
    (hs : List.Sorted (· ≤ ·) st) :
    evictOld now st = st.filter (fun u => !(decide (WINDOW_SEC < now - u))) := by
  induction st with
  | nil => rfl
  | cons a t ih =>
    rw [List.sorted_cons] at hs
    unfold evictOld at ih ⊢
    rw [List.dropWhile_cons, List.filter_cons]
    cases hp : decide (WINDOW_SEC < now - a) with
    | true =>
      rw [if_pos (by simp [hp]), if_neg (by simp [hp])]
      exact ih hs.2
    | false =>
      rw [if_neg (by simp [hp]), if_pos (by simp [hp])]
      congr 1
      symm
      rw [List.filter_eq_self]
      intro u hu
      have h1 : a ≤ u := hs.1 u hu
      have h2 : ¬(WINDOW_SEC < now - a) := by simpa using hp
      simp only [Bool.not_eq_true', decide_eq_false_iff_not]
      intro h3
      exact h2 (lt_of_lt_of_le h3 (by linarith))

/-- The raw call semantics: evict, then reject on a full bucket or record. -/
theorem check_rate_limit_eq (now : ℚ) (dq : List ℚ) :
    check_rate_limit now dq =
      if MAX_REQUESTS ≤ (evictOld now dq).length then (false, evictOld now dq)
      else (true, evictOld now dq ++ [now]) := rfl

/-- A bucket holding MAX_REQUESTS timestamps still inside the window rejects
the call and records nothing. -/
theorem check_rate_limit_full {now : ℚ} {dq : List ℚ}
    (hlen : dq.length = MAX_REQUESTS) (hin : ∀ u ∈ dq, now - u ≤ WINDOW_SEC) :
    check_rate_limit now dq = (false, dq) := by
  have hev : evictOld now dq = dq := by
    unfold evictOld
    apply dropWhile_eq_self_of_all
    intro u hu
    simpa using not_lt.mpr (hin u hu)
  rw [check_rate_limit_eq, hev, if_pos (by omega)]

/-- Once every recorded timestamp is older than the window, the call is
admitted again. -/
theorem check_rate_limit_after_window {now : ℚ} {dq : List ℚ}
    (h : ∀ u ∈ dq, WINDOW_SEC < now - u) : (check_rate_limit now dq).1 = true := by
  have hev : evictOld now dq = [] := by
    unfold evictOld
    rw [List.dropWhile_eq_nil_iff]
    intro u hu
    simpa using h u hu
  rw [check_rate_limit_eq, hev, if_neg (by simp [MAX_REQUESTS])]

/-- Admitted call times are call times. -/
theorem runCalls_admitted_subset :
    ∀ (ts st : List ℚ), ∀ a ∈ (runCalls ts st).1, a ∈ ts := by
  intro ts
  induction ts with
  | nil => intro st a ha; cases ha
  | cons t ts2 ih =>
    intro st a ha
    simp only [runCalls] at ha
    by_cases hb : (check_rate_limit t st).1 = true
    · rw [if_pos hb] at ha
      rcases List.mem_cons.mp ha with rfl | ha
      · exact List.mem_cons_self _ _
      · exact List.mem_cons_of_mem _ (ih _ a ha)
    · rw [if_neg hb] at ha
      exact List.mem_cons_of_mem _ (ih _ a ha)

/-- Key invariant: running the limiter from a sorted bucket that respects the
window bound keeps, for every window anchor, at most MAX_REQUESTS of the
bucket entries and admitted times inside the window. -/
theorem runCalls_window_invariant :
    ∀ (ts st : List ℚ), List.Sorted (· ≤ ·) ts → List.Sorted (· ≤ ·) st →
      (∀ u ∈ st, ∀ v ∈ ts, u ≤ v) →
      (∀ y : ℚ, st.countP (inWin y) ≤ MAX_REQUESTS) →
      ∀ x : ℚ, (st ++ (runCalls ts st).1).countP (inWin x) ≤ MAX_REQUESTS := by
  intro ts
  induction ts with
  | nil =>
    intro st _ _ _ hstW x
    simpa using hstW x
  | cons t ts2 ih =>
    intro st hts hst hord hstW x
    rw [List.sorted_cons] at hts
    obtain ⟨hts1, hts2⟩ := hts
    have hE := List.takeWhile_append_dropWhile
      (p := fun u => decide (WINDOW_SEC < t - u)) (l := st)
    have hdsub := List.dropWhile_sublist (l := st) (fun u => decide (WINDOW_SEC < t - u))
    have hd : List.Sorted (· ≤ ·) (evictOld t st) := List.Pairwise.sublist hdsub hst
    have hdm : ∀ u ∈ evictOld t st, u ∈ st := fun u hu => hdsub.subset hu
    have hdord : ∀ u ∈ evictOld t st, ∀ v ∈ ts2, u ≤ v :=
      fun u hu v hv => hord u (hdm u hu) v (List.mem_cons_of_mem _ hv)
    have hdW : ∀ y : ℚ, (evictOld t st).countP (inWin y) ≤ MAX_REQUESTS :=
      fun y => le_trans (hdsub.countP_le _) (hstW y)
    -- the evicted prefix is strictly older than the window before t
    have hEold : ∀ e ∈ st.takeWhile (fun u => decide (WINDOW_SEC < t - u)),
        WINDOW_SEC < t - e := by
      intro e he
      simpa using List.mem_takeWhile_imp he
    -- count over st splits over the eviction decomposition
    have hsplit : ∀ y : ℚ, st.countP (inWin y) =
        (st.takeWhile (fun u => decide (WINDOW_SEC < t - u))).countP (inWin y) +
        (evictOld t st).countP (inWin y) := by
      intro y
      conv_lhs => rw [← hE]
      exact List.countP_append _ _ _
    -- a window containing an evicted entry contains no time ≥ t
    have hsep : ∀ (hex : ∃ e ∈ st.takeWhile (fun u => decide (WINDOW_SEC < t - u)),
        inWin x e = true), ∀ a : ℚ, t ≤ a → inWin x a = false := by
      rintro ⟨e, he, hwin⟩ a hta
      rw [inWin_iff] at hwin
      rw [← Bool.not_eq_true, inWin_iff]
      rintro ⟨_, h2⟩
      have h3 := hEold e he
      linarith
    by_cases hfull : MAX_REQUESTS ≤ (evictOld t st).length
    · -- rejected: the run continues from the evicted bucket
      have hcall : check_rate_limit t st = (false, evictOld t st) := by
        rw [check_rate_limit_eq, if_pos hfull]
      have hrun : (runCalls (t :: ts2) st).1 = (runCalls ts2 (evictOld t st)).1 := by
        simp [runCalls, hcall]
      rw [hrun]
      have hIH := ih (evictOld t st) hts2 hd hdord hdW x
      rw [List.countP_append] at hIH ⊢
      by_cases hEx : (st.takeWhile (fun u => decide (WINDOW_SEC < t - u))).countP (inWin x) = 0
      · have hs := hsplit x
        rw [hEx] at hs
        omega
      · have hex : ∃ e ∈ st.takeWhile (fun u => decide (WINDOW_SEC < t - u)),
            inWin x e = true := by
          rw [← List.countP_pos_iff]
          omega
        have hA0 : ((runCalls ts2 (evictOld t st)).1).countP (inWin x) = 0 := by
          rw [List.countP_eq_zero]
          intro a ha
          have hat : t ≤ a := hts1 a (runCalls_admitted_subset ts2 _ a ha)
          simp [hsep hex a hat]
        rw [hA0]
        have := hstW x
        omega
    · -- admitted: t is recorded and the run continues from the new bucket
      have hcall : check_rate_limit t st = (true, evictOld t st ++ [t]) := by
        rw [check_rate_limit_eq, if_neg hfull]
      have hrun : (runCalls (t :: ts2) st).1 =
          t :: (runCalls ts2 (evictOld t st ++ [t])).1 := by
        simp [runCalls, hcall]
      rw [hrun]
      have hnewSorted : List.Sorted (· ≤ ·) (evictOld t st ++ [t]) := by
        rw [List.Sorted, List.pairwise_append]
        refine ⟨hd, by simp, ?_⟩
        intro u hu b hb
        rw [List.mem_singleton] at hb
        rw [hb]
        exact hord u (hdm u hu) t (List.mem_cons_self _ _)
      have hnewOrd : ∀ u ∈ evictOld t st ++ [t], ∀ v ∈ ts2, u ≤ v := by
        intro u hu v hv
        rcases List.mem_append.mp hu with hu | hu
        · exact hdord u hu v hv
        · rw [List.mem_singleton] at hu
          rw [hu]
          exact hts1 v hv
      have hnewW : ∀ y : ℚ, (evictOld t st ++ [t]).countP (inWin y) ≤ MAX_REQUESTS := by
        intro y
        rw [List.countP_append]
        have h1 := List.countP_le_length (l := evictOld t st) (inWin y)
        have h2 := List.countP_le_length (l := [t]) (inWin y)
        simp only [List.length_singleton] at h2
        have h3 : (evictOld t st).length + 1 ≤ MAX_REQUESTS := by omega
        omega
      have hIH := ih (evictOld t st ++ [t]) hts2 hnewSorted hnewOrd hnewW x
      rw [List.countP_append, List.countP_append] at hIH
      rw [List.countP_append, List.countP_cons]
      have hsing : List.countP (inWin x) [t] = if inWin x t = true then 1 else 0 := by
        rw [List.countP_cons]
        simp
      rw [hsing] at hIH
      by_cases hEx : (st.takeWhile (fun u => decide (WINDOW_SEC < t - u))).countP (inWin x) = 0
      · have hs := hsplit x
        rw [hEx] at hs
        by_cases hwt : inWin x t = true
        · rw [if_pos hwt] at hIH ⊢
          omega
        · rw [if_neg hwt] at hIH ⊢
          omega
      · have hex : ∃ e ∈ st.takeWhile (fun u => decide (WINDOW_SEC < t - u)),
            inWin x e = true := by
          rw [← List.countP_pos_iff]
          omega
        have hA0 : ((runCalls ts2 (evictOld t st ++ [t])).1).countP (inWin x) = 0 := by
          rw [List.countP_eq_zero]
          intro a ha
          have hat : t ≤ a := hts1 a (runCalls_admitted_subset ts2 _ a ha)
          simp [hsep hex a hat]
        have ht0 : inWin x t = false := hsep hex t le_rfl
        rw [hA0, ht0]
        have := hstW x
        simp only [Bool.false_eq_true, if_false]
        omega

/-- From an empty bucket, a sorted call sequence never gets more than
MAX_REQUESTS admissions into any trailing window. -/
theorem runCalls_window_bound {ts : List ℚ} (hts : List.Sorted (· ≤ ·) ts) (x : ℚ) :
    ((runCalls ts []).1).countP (inWin x) ≤ MAX_REQUESTS := by
  have h := runCalls_window_invariant ts [] hts (by simp [List.Sorted])
    (by intro u hu; cases hu) (by intro y; simp) x
  simpa using h

instance exceptDecEq {e a : Type} [DecidableEq e] [DecidableEq a] :
    DecidableEq (Except e a)
  | Except.error x, Except.error y => decidable_of_iff (x = y) (by simp)
  | Except.error _, Except.ok _ => Decidable.isFalse (by simp)
  | Except.ok _, Except.error _ => Decidable.isFalse (by simp)
  | Except.ok x, Except.ok y => decidable_of_iff (x = y) (by simp)

/-- Arithmetic helper: sixty timestamps at time zero are still inside the
window at time 900. -/
theorem replicate_window_full : ∀ u ∈ List.replicate 60 (0 : ℚ),
    (900 : ℚ) - u ≤ WINDOW_SEC := by
  intro u hu
  rw [List.eq_of_mem_replicate hu]
  norm_num [WINDOW_SEC]

/-- Arithmetic helper: at time 901 the window over timestamps at time zero
has fully elapsed. -/
theorem replicate_window_elapsed : ∀ u ∈ List.replicate 60 (0 : ℚ),
    WINDOW_SEC < (901 : ℚ) - u := by
  intro u hu
  rw [List.eq_of_mem_replicate hu]
  norm_num [WINDOW_SEC]

/-! ### Projections of the modelled HTTP response -/

/-- The HTTP status of each response of the view. -/
def statusCode : HttpResp → Nat
  | HttpResp.rateLimited => 429
  | HttpResp.badInput _ => 400
  | HttpResp.ok _ _ _ _ _ => 200

def modelOf : HttpResp → List Char
  | HttpResp.ok _ m _ _ _ => m
  | _ => []

def upsellOf : HttpResp → List Char
  | HttpResp.ok _ _ _ u _ => u
  | _ => []

def descriptionOf : HttpResp → List Char
  | HttpResp.ok _ _ d _ _ => d
  | _ => []

def wordCountOf : HttpResp → Nat
  | HttpResp.ok _ _ _ _ w => w
  | _ => 0

/-! ### Helper lemmas about the required upsell text -/

theorem isPrefixOf_extend {l1 l2 : List Char} (v : List Char)
    (h : l1.isPrefixOf l2 = true) : l1.isPrefixOf (l2 ++ v) = true := by
  induction l1 generalizing l2 with
  | nil => cases l2 ++ v <;> rfl
  | cons a t ih =>
    cases l2 with
    | nil => simp [List.isPrefixOf] at h
    | cons b t2 =>
      rw [List.cons_append]
      simp only [List.isPrefixOf, Bool.and_eq_true] at h ⊢
      exact ⟨h.1, ih h.2⟩

/-- After forcing the required words in front, the case-insensitive check of
the source accepts the upsell. -/
theorem lowerStarts_of_prefixed (v : List Char) :
    lowerStartsPairItWith ("Pair it with ".toList ++ v) = true := by
  unfold lowerStartsPairItWith pyLower
  rw [List.map_append]
  apply isPrefixOf_extend
  decide

/-! ### Claim theorems -/

/-- C1: for every client, check_rate_limit first evicts the timestamps older
than now minus the 900-second window (exactly those, on the sorted buckets the
limiter produces); with MAX_REQUESTS = 60 timestamps left in the window it
returns false and records nothing, otherwise it records now and returns true;
hence a 61st call inside the window is rejected, a call after the window has
fully elapsed is admitted again, and a monotone call sequence never has more
than 60 admissions inside any trailing window. -/
theorem C1_rate_limiter_sliding_window :
    (∀ (now : ℚ) (dq : List ℚ), check_rate_limit now dq =
      if MAX_REQUESTS ≤ (evictOld now dq).length then (false, evictOld now dq)
      else (true, evictOld now dq ++ [now])) ∧
    (∀ (now : ℚ) (dq : List ℚ), List.Sorted (· ≤ ·) dq →
      evictOld now dq = dq.filter (fun u => !(decide (WINDOW_SEC < now - u)))) ∧
    (∀ (now : ℚ) (dq : List ℚ), dq.length = MAX_REQUESTS →
      (∀ u ∈ dq, now - u ≤ WINDOW_SEC) → check_rate_limit now dq = (false, dq)) ∧
    (∀ (now : ℚ) (dq : List ℚ), (∀ u ∈ dq, WINDOW_SEC < now - u) →
      (check_rate_limit now dq).1 = true) ∧
    (∀ ts : List ℚ, List.Sorted (· ≤ ·) ts → ∀ x : ℚ,
      ((runCalls ts []).1).countP (inWin x) ≤ MAX_REQUESTS) :=
  ⟨check_rate_limit_eq,
   fun _ _ h => evictOld_sorted_filter h,
   fun _ _ h1 h2 => check_rate_limit_full h1 h2,
   fun _ _ h => check_rate_limit_after_window h,
   fun _ h x => runCalls_window_bound h x⟩

/-- Witness for C1 at concrete inputs: a full bucket of 60 in-window
timestamps rejects the call at time 900 and keeps the bucket; at time 901 the
window has elapsed and the call is admitted; a concrete sorted run respects
the window bound; a sorted bucket is filtered exactly. -/
theorem C1_rate_limiter_sliding_window_witness :
    check_rate_limit 900 (List.replicate 60 (0 : ℚ)) =
      (false, List.replicate 60 (0 : ℚ)) ∧
    (check_rate_limit 901 (List.replicate 60 (0 : ℚ))).1 = true ∧
    ((runCalls [(0 : ℚ), 1, 2] []).1).countP (inWin (-1)) ≤ MAX_REQUESTS ∧
    evictOld 1000 [(50 : ℚ), 950] =
      [(50 : ℚ), 950].filter (fun u => !(decide (WINDOW_SEC < 1000 - u))) :=
  ⟨C1_rate_limiter_sliding_window.2.2.1 900 _ (by decide) replicate_window_full,
   C1_rate_limiter_sliding_window.2.2.2.1 901 _ replicate_window_elapsed,
   C1_rate_limiter_sliding_window.2.2.2.2 [(0 : ℚ), 1, 2] (by decide) (-1),
   C1_rate_limiter_sliding_window.2.1 1000 [(50 : ℚ), 950] (by decide)⟩

/-- C2: the sanitizer succeeds exactly on inputs whose trimmed length is
between 2 and 120 and whose characters all lie in the allow-list, and every
returned value has no doubled internal whitespace. -/
theorem C2_sanitizer_contract :
    (∀ s : List Char, (∃ r, sanitize_item_name s = Except.ok r) ↔
      (2 ≤ (pyStrip s).length ∧ (pyStrip s).length ≤ 120 ∧
       ∀ c ∈ s, allowedChar c = true)) ∧
    (∀ s r : List Char, sanitize_item_name s = Except.ok r →
      hasDoubleWS r = false) := by
  refine ⟨sanitize_ok_iff, ?_⟩
  intro s r h
  obtain ⟨_, _, _, hr⟩ := sanitize_ok_elim h
  rw [hr]
  exact collapseWS_no_double _

/-- Witness for C2 at concrete inputs: a padded name sanitizes successfully
and the modelled result has no doubled whitespace. -/
theorem C2_sanitizer_contract_witness :
    (∃ r, sanitize_item_name ("  Veg   Biryani  ".toList) = Except.ok r) ∧
    hasDoubleWS ("Veg Biryani".toList) = false :=
  ⟨(C2_sanitizer_contract.1 ("  Veg   Biryani  ".toList)).mpr (by decide),
   C2_sanitizer_contract.2 ("  Veg   Biryani  ".toList) ("Veg Biryani".toList)
     (by decide)⟩

/-- C3: the deterministic generator is a pure function of the item name: its
output does not depend on the model hint, on wall-clock time or on external
randomness (there is no such input), so any two calls with the same name give
identical description and upsell strings. -/
theorem C3_mock_generate_deterministic :
    ∀ name hint1 hint2 : List Char,
      mock_generate name hint1 = mock_generate name hint2 :=
  fun _ _ _ => rfl

/-- C4: the description of the deterministic generator always has at most 30
whitespace-separated words; truncation above the limit keeps exactly the first
limit tokens with no ellipsis, and at or below the limit it returns the
stripped input unchanged. -/
theorem C4_truncation_thirty_words :
    (∀ name hint : List Char, (pySplit (mock_generate name hint).1).length ≤ 30) ∧
    (∀ (s : List Char) (limit : Nat), limit < (pySplit s).length →
      truncate_words s limit = joinSpace ((pySplit s).take limit) ∧
      pySplit (truncate_words s limit) = (pySplit s).take limit) ∧
    (∀ (s : List Char) (limit : Nat), (pySplit s).length ≤ limit →
      truncate_words s limit = pyStrip s) := by
  refine ⟨?_, ?_, ?_⟩
  · intro name hint
    exact truncate_words_count_le _ 30
  · intro s limit h
    exact ⟨truncate_words_gt h, pySplit_truncate_words_gt h⟩
  · intro s limit h
    exact truncate_words_le h

/-- Witness for C4 at concrete inputs: truncating a four-word string to two
words keeps exactly the first two tokens, and a two-word string is returned
stripped and unchanged under the 30-word limit. -/
theorem C4_truncation_thirty_words_witness :
    (truncate_words ("one two three four".toList) 2 = joinSpace
      ((pySplit ("one two three four".toList)).take 2) ∧
     pySplit (truncate_words ("one two three four".toList) 2) =
      (pySplit ("one two three four".toList)).take 2) ∧
    truncate_words (" one  two ".toList) 30 = pyStrip (" one  two ".toList) :=
  ⟨C4_truncation_thirty_words.2.1 ("one two three four".toList) 2 (by decide),
   C4_truncation_thirty_words.2.2 (" one  two ".toList) 30 (by decide)⟩

/-- C5: upsell inference over an ordered rule table is first-match-wins: the
subject of the earliest matching rule is returned, none when no rule matches;
in the deterministic generator the missing-match default subject is Iced Tea
and the upsell line is the fixed Pair-it-with format around the subject. -/
theorem C5_first_match_wins :
    (∀ (pre rest : List (List (List Char) × List Char)) (pat : List (List Char))
        (subj text : List Char),
      (∀ r ∈ pre, kwMatch r.1 text = false) → kwMatch pat text = true →
      firstMatchSubject (pre ++ (pat, subj) :: rest) text = some subj) ∧
    (∀ (rules : List (List (List Char) × List Char)) (text : List Char),
      (∀ r ∈ rules, kwMatch r.1 text = false) →
      firstMatchSubject rules text = none) ∧
    (∀ name hint : List Char, (mock_generate name hint).2 =
      "Pair it with a ".toList ++
        (firstMatchSubject _UPSELL_BY_KEYWORD name).getD ("Iced Tea".toList) ++
        "!".toList) := by
  refine ⟨?_, ?_, ?_⟩
  · intro pre
    induction pre with
    | nil =>
      intro rest pat subj text _ hm
      simp only [List.nil_append, firstMatchSubject]
      rw [hm, if_pos rfl]
    | cons r pre2 ih =>
      intro rest pat subj text hpre hm
      obtain ⟨rp, rs⟩ := r
      have hr : kwMatch rp text = false := hpre (rp, rs) (List.mem_cons_self _ _)
      rw [List.cons_append]
      simp only [firstMatchSubject]
      rw [hr, if_neg (by simp)]
      exact ih rest pat subj text
        (fun q hq => hpre q (List.mem_cons_of_mem _ hq)) hm
  · intro rules
    induction rules with
    | nil => intro text _; rfl
    | cons r rules2 ih =>
      intro text hall
      obtain ⟨rp, rs⟩ := r
      have hr : kwMatch rp text = false := hall (rp, rs) (List.mem_cons_self _ _)
      simp only [firstMatchSubject]
      rw [hr, if_neg (by simp)]
      exact ih text (fun q hq => hall q (List.mem_cons_of_mem _ hq))
  · intro name hint
    rfl

/-- Witness for C5 at concrete inputs: Veg Biryani skips the first two rules
and matches the third, and Mystery Bowl matches no rule. -/
theorem C5_first_match_wins_witness :
    firstMatchSubject _UPSELL_BY_KEYWORD ("Veg Biryani".toList) =
      some ("Raita".toList) ∧
    firstMatchSubject _UPSELL_BY_KEYWORD ("Mystery Bowl".toList) = none :=
  ⟨C5_first_match_wins.1
      [(["paneer".toList, "tikka".toList], "Mango Lassi".toList),
       (["pizza".toList, "margherita".toList, "pepperoni".toList],
        "Garlic Bread".toList)]
      [(["burger".toList, "cheese".toList], "Crispy Fries".toList),
       (["noodle".toList, "ramen".toList], "Spring Rolls".toList),
       (["tandoori".toList, "kebab".toList], "Mint Chutney".toList),
       (["pasta".toList], "Garlic Bread".toList),
       (["salad".toList], "Iced Tea".toList),
       (["wrap".toList, "roll".toList], "Masala Fries".toList)]
      ["biryani".toList] ("Raita".toList) ("Veg Biryani".toList)
      (by decide) (by decide),
   C5_first_match_wins.2.1 _UPSELL_BY_KEYWORD ("Mystery Bowl".toList) (by decide)⟩

/-- C6: in default mock mode the upsell for Paneer Tikka is the Mango Lassi
line, for Cheese Burger Deluxe the Crispy Fries line, for Mystery Bowl (no
rule matches) the Iced Tea default line; and the mock-mode response for Veg
Biryani is a 200 whose upsell is the Raita line, whose description stays
within 30 words, and whose model identifier starts with mock-. -/
theorem C6_default_mode_concrete_examples :
    (mock_generate ("Paneer Tikka".toList) ("gpt-4".toList)).2 =
      "Pair it with a Mango Lassi!".toList ∧
    (mock_generate ("Cheese Burger Deluxe".toList) ("gpt-4".toList)).2 =
      "Pair it with a Crispy Fries!".toList ∧
    (mock_generate ("Mystery Bowl".toList) ("gpt-4".toList)).2 =
      "Pair it with a Iced Tea!".toList ∧
    statusCode (generate_item_details 0 [] ("Veg Biryani".toList)
      (some ("mock".toList)) none none none
      (Except.error ProviderError.transport) (Except.error ())).1 = 200 ∧
    upsellOf (generate_item_details 0 [] ("Veg Biryani".toList)
      (some ("mock".toList)) none none none
      (Except.error ProviderError.transport) (Except.error ())).1 =
      "Pair it with a Raita!".toList ∧
    wordCountOf (generate_item_details 0 [] ("Veg Biryani".toList)
      (some ("mock".toList)) none none none
      (Except.error ProviderError.transport) (Except.error ())).1 ≤ 30 ∧
    ("mock-".toList).isPrefixOf (modelOf (generate_item_details 0 []
      ("Veg Biryani".toList) (some ("mock".toList)) none none none
      (Except.error ProviderError.transport) (Except.error ())).1) = true := by
  decide

/-- C7 counterexample: when the reply content is not JSON, the line-based
heuristic of the chat providers returns the second non-blank line verbatim,
so the returned upsell need not start with the required prefix. -/
theorem C7_counterexample_heuristic_upsell :
    call_openai (some ("key".toList))
      (Except.ok ⟨none, "Nice dish\nBuy fries today".toList⟩) =
      Except.ok ("Nice dish".toList, "Buy fries today".toList) ∧
    ("Pair it with ".toList).isPrefixOf ("Buy fries today".toList) = false := by
  decide

/-- C7 amended: in the JSON path of both chat providers the returned upsell
always starts, case-insensitively, with pair-it-with (it is prefixed when
needed); in the non-JSON heuristic path the upsell is the generic prefixed
beverage line when the content has fewer than two non-blank lines, and is the
second non-blank line verbatim (possibly without the prefix) otherwise; and
the provider calls return exactly these extractions. -/
theorem C7_amended_upsell_prefix_paths :
    (∀ (parsed : Option (List Char × List Char)) (content : List Char),
      parsed ≠ none →
        lowerStartsPairItWith (openai_extract parsed content).2 = true ∧
        lowerStartsPairItWith (deepseek_extract parsed content).2 = true) ∧
    (∀ content : List Char, (contentLines content).length ≤ 1 →
        (openai_extract none content).2 =
          "Pair it with a refreshing beverage!".toList ∧
        (deepseek_extract none content).2 =
          "Pair it with a refreshing beverage!".toList) ∧
    (∀ (content l0 l1 : List Char) (rest : List (List Char)),
        contentLines content = l0 :: l1 :: rest →
        (openai_extract none content).2 = l1 ∧
        (deepseek_extract none content).2 = l1) ∧
    (∀ (key : List Char) (reply : ChatReply) (du : List Char × List Char),
        call_openai (some key) (Except.ok reply) = Except.ok du →
        du = openai_extract reply.parsed reply.content) ∧
    (∀ (key : List Char) (reply : ChatReply) (du : List Char × List Char),
        call_deepseek (some key) (Except.ok reply) = Except.ok du →
        du = deepseek_extract reply.parsed reply.content) := by
  refine ⟨?_, ?_, ?_, ?_, ?_⟩
  · intro parsed content hne
    cases parsed with
    | none => exact absurd rfl hne
    | some p =>
      obtain ⟨d0, u0⟩ := p
      constructor
      · simp only [openai_extract]
        by_cases h : lowerStartsPairItWith (pyStrip u0) = true
        · rw [if_pos h]
          exact h
        · rw [if_neg h]
          exact lowerStarts_of_prefixed _
      · simp only [deepseek_extract]
        by_cases h : lowerStartsPairItWith (pyStrip u0) = true
        · rw [if_pos h]
          exact h
        · rw [if_neg h]
          exact lowerStarts_of_prefixed _
  · intro content hlen
    rcases hl : contentLines content with _ | ⟨l0, _ | ⟨l1, rest⟩⟩
    · constructor <;> simp [openai_extract, deepseek_extract, hl]
    · constructor <;> simp [openai_extract, deepseek_extract, hl]
    · rw [hl] at hlen
      simp at hlen
  · intro content l0 l1 rest hl
    constructor <;> simp [openai_extract, deepseek_extract, hl]
  · intro key reply du h
    obtain ⟨p, c⟩ := reply
    simp only [call_openai] at h
    injection h with h
    exact h.symm
  · intro key reply du h
    obtain ⟨p, c⟩ := reply
    simp only [call_deepseek] at h
    injection h with h
    exact h.symm

/-- Witness for C7 amended at concrete inputs: a parsed JSON upsell is
prefixed case-insensitively, a one-line content yields the generic beverage
line, and a two-line content yields the second line. -/
theorem C7_amended_upsell_prefix_paths_witness :
    lowerStartsPairItWith
      (openai_extract (some ("d".toList, "cola".toList)) []).2 = true ∧
    (openai_extract none ("one line".toList)).2 =
      "Pair it with a refreshing beverage!".toList ∧
    (openai_extract none ("a\nb".toList)).2 = "b".toList :=
  ⟨(C7_amended_upsell_prefix_paths.1 (some ("d".toList, "cola".toList)) []
      (by decide)).1,
   (C7_amended_upsell_prefix_paths.2.1 ("one line".toList) (by decide)).1,
   (C7_amended_upsell_prefix_paths.2.2.1 ("a\nb".toList) ("a".toList) ("b".toList) []
      (by decide)).1⟩

/-- C8 counterexample: with SERPAPI_KEY missing the SerpAPI-based provider
does not fail with a provider error: it returns the generic beverage upsell
normally, and the serpapi-mode response is an ordinary 200 carrying the
serpapi model identifier. -/
theorem C8_counterexample_serpapi_no_error :
    call_serpapi_for_upsell none (Except.ok []) ("Paneer Tikka".toList) =
      "Pair it with a refreshing beverage!".toList ∧
    statusCode (generate_item_details 0 [] ("Paneer Tikka".toList)
      (some ("serpapi".toList)) none none none
      (Except.error ProviderError.transport) (Except.ok [])).1 = 200 ∧
    modelOf (generate_item_details 0 [] ("Paneer Tikka".toList)
      (some ("serpapi".toList)) none none none
      (Except.error ProviderError.transport) (Except.ok [])).1 =
      "serpapi+mock-desc".toList := by
  decide

/-- C8 amended: with the credential missing, the OpenAI-like and
DeepSeek-like providers fail immediately with the missing-credential error,
independently of the transport (hence without any network call); the
SerpAPI-based provider likewise ignores the transport without its key, but it
returns the generic beverage upsell instead of failing. -/
theorem C8_amended_missing_credentials :
    (∀ transport, call_openai none transport =
      Except.error ProviderError.missingCredential) ∧
    (∀ transport, call_deepseek none transport =
      Except.error ProviderError.missingCredential) ∧
    (∀ transport name, call_serpapi_for_upsell none transport name =
      "Pair it with a refreshing beverage!".toList) :=
  ⟨fun _ => rfl, fun _ => rfl, fun _ _ => rfl⟩

/-- C9 counterexample: in serpapi mode with no configured credential the
response is a normal 200, but its upsell is the generic beverage line rather
than the deterministic generator upsell for the same name, so the response
does not equal the deterministic fallback output. -/
theorem C9_counterexample_serpapi_not_fallback :
    statusCode (generate_item_details 0 [] ("Paneer Tikka".toList)
      (some ("serpapi".toList)) none none none
      (Except.error ProviderError.transport) (Except.ok [])).1 = 200 ∧
    upsellOf (generate_item_details 0 [] ("Paneer Tikka".toList)
      (some ("serpapi".toList)) none none none
      (Except.error ProviderError.transport) (Except.ok [])).1 =
      "Pair it with a refreshing beverage!".toList ∧
    (mock_generate ("Paneer Tikka".toList) ("gpt-4".toList)).2 =
      "Pair it with a Mango Lassi!".toList ∧
    upsellOf (generate_item_details 0 [] ("Paneer Tikka".toList)
      (some ("serpapi".toList)) none none none
      (Except.error ProviderError.transport) (Except.ok [])).1 ≠
      (mock_generate ("Paneer Tikka".toList) ("gpt-4".toList)).2 := by
  decide

/-- C9 amended: every request that passes rate limiting and sanitization gets
a 200 response.  In openai mode, any provider failure (a missing credential
included) silently falls back to the deterministic generator output for the
sanitized name, with model string mock- followed by the model choice.  In
serpapi mode the description always comes from the deterministic generator,
but a missing credential yields the generic beverage upsell, not the
deterministic generator upsell, with the fixed serpapi model string.  The
model string names the path that actually executed. -/
theorem C9_amended_fallback_semantics :
    (∀ (now : ℚ) (st : List ℚ) (raw : List Char)
        (modeF modelF okey skey : Option (List Char))
        (otr : Except ProviderError ChatReply)
        (str2 : Except Unit (List (Option (List Char)))),
      (check_rate_limit now st).1 = true →
      (∃ r, sanitize_item_name raw = Except.ok r) →
      statusCode (generate_item_details now st raw modeF modelF okey skey
        otr str2).1 = 200) ∧
    (∀ (now : ℚ) (st : List ℚ) (raw r : List Char)
        (modelF okey skey : Option (List Char))
        (otr : Except ProviderError ChatReply)
        (str2 : Except Unit (List (Option (List Char)))) (e : ProviderError),
      (check_rate_limit now st).1 = true →
      sanitize_item_name raw = Except.ok r →
      call_openai okey otr = Except.error e →
      (generate_item_details now st raw (some ("openai".toList)) modelF okey
        skey otr str2).1 =
        HttpResp.ok r
          ("mock-".toList ++ pyLower (pyOrDefault modelF ("gpt-4".toList)))
          (mock_generate r (pyLower (pyOrDefault modelF ("gpt-4".toList)))).1
          (mock_generate r (pyLower (pyOrDefault modelF ("gpt-4".toList)))).2
          (pySplit (mock_generate r
            (pyLower (pyOrDefault modelF ("gpt-4".toList)))).1).length) ∧
    (∀ (now : ℚ) (st : List ℚ) (raw r : List Char)
        (modelF okey : Option (List Char))
        (otr : Except ProviderError ChatReply)
        (str2 : Except Unit (List (Option (List Char)))),
      (check_rate_limit now st).1 = true →
      sanitize_item_name raw = Except.ok r →
      (generate_item_details now st raw (some ("serpapi".toList)) modelF okey
        none otr str2).1 =
        HttpResp.ok r ("serpapi+mock-desc".toList)
          (mock_generate r (pyLower (pyOrDefault modelF ("gpt-4".toList)))).1
          ("Pair it with a refreshing beverage!".toList)
          (pySplit (mock_generate r
            (pyLower (pyOrDefault modelF ("gpt-4".toList)))).1).length) := by
  refine ⟨?_, ?_, ?_⟩
  · intro now st raw modeF modelF okey skey otr str2 hadm hok
    obtain ⟨r, hr⟩ := hok
    simp [generate_item_details, hadm, hr, statusCode]
  · intro now st raw r modelF okey skey otr str2 e hadm hr hcall
    have hmode : pyLower (pyOrDefault (some ['o','p','e','n','a','i'])
        ['m','o','c','k']) = ['o','p','e','n','a','i'] := by decide
    simp [generate_item_details, hadm, hr, hcall, hmode]
  · intro now st raw r modelF okey otr str2 hadm hr
    have hmode : pyLower (pyOrDefault (some ['s','e','r','p','a','p','i'])
        ['m','o','c','k']) = ['s','e','r','p','a','p','i'] := by decide
    have hnotopenai : ¬(pyLower (pyOrDefault (some ['s','e','r','p','a','p','i'])
        ['m','o','c','k']) = ['o','p','e','n','a','i']) := by decide
    have hserp : ∀ tname, call_serpapi_for_upsell none str2 tname =
        "Pair it with a refreshing beverage!".toList := fun _ => rfl
    simp [generate_item_details, hadm, hr, hmode, hnotopenai, hserp]

/-- Witness for C9 amended at concrete inputs: the mock-mode request for Veg
Biryani is a 200; the openai-mode request with no key returns exactly the
deterministic output with the mock model string; the serpapi-mode request
with no key returns the mock description with the generic beverage upsell. -/
theorem C9_amended_fallback_semantics_witness :
    statusCode (generate_item_details 0 [] ("Veg Biryani".toList)
      (some ("mock".toList)) none none none
      (Except.error ProviderError.transport) (Except.error ())).1 = 200 ∧
    (generate_item_details 0 [] ("Veg Biryani".toList)
      (some ("openai".toList)) none none none
      (Except.error ProviderError.transport) (Except.error ())).1 =
      HttpResp.ok ("Veg Biryani".toList)
        ("mock-".toList ++ pyLower (pyOrDefault none ("gpt-4".toList)))
        (mock_generate ("Veg Biryani".toList)
          (pyLower (pyOrDefault none ("gpt-4".toList)))).1
        (mock_generate ("Veg Biryani".toList)
          (pyLower (pyOrDefault none ("gpt-4".toList)))).2
        (pySplit (mock_generate ("Veg Biryani".toList)
          (pyLower (pyOrDefault none ("gpt-4".toList)))).1).length ∧
    (generate_item_details 0 [] ("Veg Biryani".toList)
      (some ("serpapi".toList)) none none none
      (Except.error ProviderError.transport) (Except.ok [])).1 =
      HttpResp.ok ("Veg Biryani".toList) ("serpapi+mock-desc".toList)
        (mock_generate ("Veg Biryani".toList)
          (pyLower (pyOrDefault none ("gpt-4".toList)))).1
        ("Pair it with a refreshing beverage!".toList)
        (pySplit (mock_generate ("Veg Biryani".toList)
          (pyLower (pyOrDefault none ("gpt-4".toList)))).1).length :=
  ⟨C9_amended_fallback_semantics.1 0 [] ("Veg Biryani".toList)
      (some ("mock".toList)) none none none
      (Except.error ProviderError.transport) (Except.error ())
      (by decide) ⟨("Veg Biryani".toList), by decide⟩,
   C9_amended_fallback_semantics.2.1 0 [] ("Veg Biryani".toList)
      ("Veg Biryani".toList) none none none
      (Except.error ProviderError.transport) (Except.error ())
      ProviderError.missingCredential (by decide) (by decide) (by decide),
   C9_amended_fallback_semantics.2.2 0 [] ("Veg Biryani".toList)
      ("Veg Biryani".toList) none none
      (Except.error ProviderError.transport) (Except.ok [])
      (by decide) (by decide)⟩

/-- C10: the sanitizer checks the trimmed length before collapsing whitespace
runs: a raw input of trimmed length 121 is rejected even though its collapsed
form would fit in 120 characters; and every successfully returned value has
length between 2 and 120 and stays inside the allow-list. -/
theorem C10_trim_before_collapse :
    (∀ s r : List Char, sanitize_item_name s = Except.ok r →
      2 ≤ r.length ∧ r.length ≤ 120 ∧ ∀ c ∈ r, allowedChar c = true) ∧
    sanitize_item_name ('a' :: (List.replicate 119 ' ' ++ ['b'])) =
      Except.error ("itemName length must be between 2 and 120 characters.".toList) ∧
    (collapseWS (pyStrip ('a' :: (List.replicate 119 ' ' ++ ['b'])))).length ≤ 120 := by
  refine ⟨fun s r h => sanitize_result_bounds h, by decide, by decide⟩

/-- Witness for C10 at a concrete input: the sanitized form of a padded name
respects both bounds and the allow-list. -/
theorem C10_trim_before_collapse_witness :
    2 ≤ ("Veg Biryani".toList).length ∧ ("Veg Biryani".toList).length ≤ 120 ∧
    ∀ c ∈ "Veg Biryani".toList, allowedChar c = true :=
  C10_trim_before_collapse.1 ("  Veg   Biryani ".toList) ("Veg Biryani".toList)
    (by decide)

end AIMenu
